import Mathlib

/-!
# MythOS announcement repository — shallow embedding

This file embeds the announcement-list logic of `src/Mythos.jsx`
(`publishAnnouncement`, `saveEdit`, `requestDelete`, `filteredSorted`,
pagination) as executable Lean definitions and proves/refutes the frozen
claims about it.

Modelling conventions:
* JS strings are Lean `String`; a possibly-`undefined` field is `Option String`.
* `x || d` on a string-or-undefined value is `jsOr` (both `undefined` and the
  empty string are falsy).
* `String.prototype.trim`/`toLowerCase` are modelled by `trimStr` (drop
  whitespace at both ends) and `lowerStr` (character-wise `Char.toLower`),
  faithful on the ASCII data the code handles.
* `new Date(s).getTime()` is an oracle parameter `parseDate : String → Option Int`,
  `none` standing for `NaN` (an Invalid Date); `a?.date || 0` gives `new Date(0)`,
  i.e. the epoch (`some 0`), when `date` is absent or the empty string.
* `String.prototype.localeCompare` is an oracle parameter
  `lc : String → String → Int` (locale-aware, environment dependent).
* `Array.prototype.sort` (ES2019+: stable; a comparator result of `NaN` is
  treated as `+0` per `SortCompare`) is modelled by Mathlib's stable
  `List.insertionSort` on the relation `cmp a b ≤ 0`.
-/

namespace Mythos

/-- JS `x || d` for a string-valued `x` that may be `undefined`:
both `undefined` and `""` fall through to the default. -/
def jsOr (o : Option String) (d : String) : String :=
  match o with
  | none => d
  | some s => if s = "" then d else s

/-- Whitespace test used by trimming. -/
def isWs (c : Char) : Bool := c.isWhitespace

/-- Trim whitespace from both ends of a character list. -/
def trimChars (l : List Char) : List Char :=
  ((l.dropWhile isWs).reverse.dropWhile isWs).reverse

/-- Model of `String.prototype.trim`: strip leading and trailing whitespace. -/
def trimStr (s : String) : String := ⟨trimChars s.data⟩

/-- Character-wise lower-casing, modelling `String.prototype.toLowerCase`. -/
def lowerStr (s : String) : String := ⟨s.data.map Char.toLower⟩

/-- Test `leadsWith n h` : the char list `n` is an initial segment of `h`. -/
def leadsWith : List Char → List Char → Bool
  | [], _ => true
  | _ :: _, [] => false
  | a :: as, b :: bs => a == b && leadsWith as bs

/-- Test `hasSubList n h` : `n` occurs as a contiguous sub-list of `h`. -/
def hasSubList (needle : List Char) : List Char → Bool
  | [] => leadsWith needle []
  | c :: t => leadsWith needle (c :: t) || hasSubList needle t

/-- JS `hay.includes(needle)` : substring test. -/
def containsSub (hay needle : String) : Bool := hasSubList needle.data hay.data

/-- The sole persisted core entity (fields `a?.title` etc. may be absent). -/
structure Announcement where
  id : String
  title : Option String
  message : Option String
  author : Option String
  verified : Bool
  date : Option String
deriving DecidableEq

/-- An uncommitted title/message pair (`announcementData` / `editDraft`). -/
structure Draft where
  title : Option String
  message : Option String
deriving DecidableEq

/-- The session user: display name (possibly absent) and role string. -/
structure User where
  name : Option String
  role : String
deriving DecidableEq

/-- Model of `const canManage = (user?.role) === 'admin'`. -/
def canManage (user : Option User) : Bool :=
  match user with
  | none => false
  | some u => u.role == "admin"

/-- The value `user?.name` as an optional string. -/
def userName (user : Option User) : Option String :=
  match user with
  | none => none
  | some u => u.name

/-- The component state the announcement logic reads and writes. -/
structure RepoState where
  announcements : List Announcement
  announcementData : Draft
  editingId : Option String
  editDraft : Draft
  pendingDelete : Option String
  confirmOpen : Bool
deriving DecidableEq

/-- Which control-flow branch an operation took.  `unauthorized`,
`invalidTitle` and `invalidMessage` are the early `return`s of
`publishAnnouncement` / `saveEdit` / `requestDelete`; `ok` is the fall-through
success branch.  `notFound` is the error outcome the spec's taxonomy demands
for `update` on a missing id; it is listed so that the claim about it can be
stated (the code never produces it). -/
inductive Outcome where
  | unauthorized
  | invalidTitle
  | invalidMessage
  | notFound
  | ok
deriving DecidableEq

/-- Model of `publishAnnouncement` (src/Mythos.jsx lines 353–372).  `newId` is the
value `uid()` returned and `now` the value `nowISO()` returned at this call. -/
def publishAnnouncement (user : Option User) (newId now : String)
    (s : RepoState) : Outcome × RepoState :=
  if !canManage user then (.unauthorized, s)
  else
    let title := trimStr (jsOr s.announcementData.title "")
    let message := trimStr (jsOr s.announcementData.message "")
    if title.length < 3 then (.invalidTitle, s)
    else if message.length < 5 then (.invalidMessage, s)
    else
      let newA : Announcement :=
        { id := newId
          title := some title
          message := some message
          author := some (jsOr (userName user) "System")
          verified := true
          date := some now }
      (.ok,
        { s with
          announcements := newA :: s.announcements
          announcementData := { title := some "", message := some "" } })

/-- The per-element function of `saveEdit`'s
`prev.map(a => a.id === id ? { ...a, title: t, message: m } : a)`. -/
def applyEdit (id t m : String) (a : Announcement) : Announcement :=
  if a.id == id then { a with title := some t, message := some m } else a

/-- Model of `saveEdit` (src/Mythos.jsx lines 385–395). -/
def saveEdit (user : Option User) (id : String) (s : RepoState) :
    Outcome × RepoState :=
  if !canManage user then (.unauthorized, s)
  else
    let t := trimStr (jsOr s.editDraft.title "")
    let m := trimStr (jsOr s.editDraft.message "")
    if t.length < 3 then (.invalidTitle, s)
    else if m.length < 5 then (.invalidMessage, s)
    else
      (.ok,
        { s with
          announcements := s.announcements.map (applyEdit id t m)
          editingId := none
          editDraft := { title := some "", message := some "" } })

/-- Model of `requestDelete` (src/Mythos.jsx lines 397–401), the entry point of the
remove flow. -/
def requestDelete (user : Option User) (id : String) (s : RepoState) :
    Outcome × RepoState :=
  if !canManage user then (.unauthorized, s)
  else (.ok, { s with pendingDelete := some id, confirmOpen := true })

/-! ## The query pipeline: filter, sort, paginate -/

/-- The filter predicate of `filteredSorted` (src/Mythos.jsx lines 331–336),
applied to the already trimmed-and-lowercased search text `q`:
`!q || t.includes(q) || m.includes(q) || au.includes(q)`. -/
def matchesFilter (q : String) (a : Announcement) : Bool :=
  let t := lowerStr (jsOr a.title "")
  let m := lowerStr (jsOr a.message "")
  let au := lowerStr (jsOr a.author "")
  q == "" || containsSub t q || containsSub m q || containsSub au q

/-- The value `new Date(a?.date || 0).getTime()` : absent or empty `date` gives the
epoch (`new Date(0)`), otherwise the string is parsed by the oracle
`parseDate` (`none` = `NaN`, an Invalid Date). -/
def dateMs (parseDate : String → Option Int) (a : Announcement) : Option Int :=
  match a.date with
  | none => some 0
  | some s => if s = "" then some 0 else parseDate s

/-- The comparator body of `filteredSorted` (src/Mythos.jsx lines 337–344),
before the ES `SortCompare` step.  `none` is a `NaN` result (a date failed to
parse). -/
def compareAnn (lc : String → String → Int) (parseDate : String → Option Int)
    (sortKey sortDir : String) (a b : Announcement) : Option Int :=
  let dir : Int := if sortDir == "asc" then 1 else -1
  if sortKey == "title" then some (lc (jsOr a.title "") (jsOr b.title "") * dir)
  else if sortKey == "author" then
    some (lc (jsOr a.author "") (jsOr b.author "") * dir)
  else
    match dateMs parseDate a, dateMs parseDate b with
    | some x, some y => some ((x - y) * dir)
    | _, _ => none

/-- ES `SortCompare`: a `NaN` comparator result is replaced by `+0`. -/
def sortCompare (lc : String → String → Int) (parseDate : String → Option Int)
    (sortKey sortDir : String) (a b : Announcement) : Int :=
  (compareAnn lc parseDate sortKey sortDir a b).getD 0

/-- ES2019+ `Array.prototype.sort`: a stable sort that places `a` before `b`
when the comparator yields `≤ 0`. -/
def jsSort (cmp : Announcement → Announcement → Int)
    (l : List Announcement) : List Announcement :=
  List.insertionSort (fun a b => cmp a b ≤ 0) l

/-- Model of `filteredSorted` (src/Mythos.jsx lines 329–346): trim + lowercase the
debounced search text, filter, then sort a copy with the comparator. -/
def filteredSorted (lc : String → String → Int)
    (parseDate : String → Option Int) (announcements : List Announcement)
    (search sortKey sortDir : String) : List Announcement :=
  let q := lowerStr (trimStr search)
  let list := announcements.filter (matchesFilter q)
  jsSort (sortCompare lc parseDate sortKey sortDir) list

/-- Model of `const pageSize = 5`. -/
def pageSize : Nat := 5

/-- Model of `const clamp = (n, min, max) => Math.max(min, Math.min(max, n))`. -/
def clamp (n lo hi : Int) : Int := max lo (min hi n)

/-- What one query renders: the page slice, the clamped page number
(`pageSafe`), `pageCount` and the filtered total. -/
structure QueryResult where
  items : List Announcement
  pageNumber : Int
  pageCount : Int
  totalCount : Nat
deriving DecidableEq

/-- The whole read path (src/Mythos.jsx lines 329–351): `filteredSorted`,
`pageCount = Math.max(1, Math.ceil(len / pageSize))`,
`pageSafe = clamp(page, 1, pageCount)` and
`pageItems = filteredSorted.slice((pageSafe-1)*pageSize, pageSafe*pageSize)`. -/
def query (lc : String → String → Int) (parseDate : String → Option Int)
    (announcements : List Announcement) (search sortKey sortDir : String)
    (page : Int) : QueryResult :=
  let fs := filteredSorted lc parseDate announcements search sortKey sortDir
  let pageCount : Int := max 1 (((fs.length : Int) + pageSize - 1) / pageSize)
  let pageSafe := clamp page 1 pageCount
  { items := (fs.drop ((pageSafe - 1).toNat * pageSize)).take pageSize
    pageNumber := pageSafe
    pageCount := pageCount
    totalCount := fs.length }

/-- The read path together with its effect on the store.  `Array.filter`
allocates a fresh array, so the in-place `list.sort(...)` mutates only that
copy; the second component is the announcements array the store holds after
the evaluation. -/
def queryExec (lc : String → String → Int) (parseDate : String → Option Int)
    (announcements : List Announcement) (search sortKey sortDir : String)
    (page : Int) : QueryResult × List Announcement :=
  (query lc parseDate announcements search sortKey sortDir page, announcements)

/-! ## Phrasings taken from the specification, for comparison with the code -/

/-- The date-to-timestamp reading as claim C5 words it: an announcement whose
date is *unparsable or missing* is treated as the epoch (earliest).  Compare
with `dateMs`, which yields `NaN` (`none`) on an unparsable date. -/
def claimDateMs (parseDate : String → Option Int) (a : Announcement) : Int :=
  match a.date with
  | none => 0
  | some s => if s = "" then 0 else (parseDate s).getD 0

/-- The date comparator as claim C5 words it (epoch for unparsable dates),
to be compared with `sortCompare` on key `"date"`. -/
def claimDateCompare (parseDate : String → Option Int) (sortDir : String)
    (a b : Announcement) : Int :=
  (claimDateMs parseDate a - claimDateMs parseDate b) *
    (if sortDir == "asc" then 1 else -1)

/-- The filter predicate as claim C9 words it: the filter text, lowercased
(but *not* trimmed), must be a substring of a lowercased field; an empty or
blank filter matches everything.  Compare with `matchesFilter`, which the
code applies to the *trimmed*-then-lowercased filter text. -/
def claimMatches (filter : String) (a : Announcement) : Bool :=
  let q := lowerStr filter
  let t := lowerStr (jsOr a.title "")
  let m := lowerStr (jsOr a.message "")
  let au := lowerStr (jsOr a.author "")
  trimStr filter == "" || containsSub t q || containsSub m q || containsSub au q

/-! ## Concrete sample data for witnesses and counterexamples -/

/-- A deterministic stand-in for `localeCompare` in concrete evaluations. -/
def lcStd : String → String → Int := fun a b =>
  match compare a b with
  | Ordering.lt => -1
  | Ordering.eq => 0
  | Ordering.gt => 1

/-- A date-parsing oracle for concrete evaluations: one parsable ISO instant,
everything else is an Invalid Date (as `new Date("not-a-date")` is). -/
def pdSample : String → Option Int := fun s =>
  if s = "1970-01-01T00:00:01.000Z" then some 1000 else none

/-- Sample entity whose `date` string does not parse. -/
def annA : Announcement :=
  { id := "a", title := some "abc", message := some "hello there"
    author := some "Ann", verified := true, date := some "not-a-date" }

/-- Sample entity with a parsable date (1 s after the epoch). -/
def annB : Announcement :=
  { id := "b", title := some "bcd", message := some "world news"
    author := some "Bob", verified := true
    date := some "1970-01-01T00:00:01.000Z" }

/-- A session user with the privileged role. -/
def adminU : Option User := some { name := some "Ava", role := "admin" }

/-- A session user without the privileged role. -/
def studentU : Option User := some { name := some "Sam", role := "student" }

/-- A sample state with one stored announcement and valid drafts. -/
def st0 : RepoState :=
  { announcements := [annB]
    announcementData := { title := some "Hello", message := some "World out there" }
    editingId := some "b"
    editDraft := { title := some "New Title", message := some "New message" }
    pendingDelete := none
    confirmOpen := false }

/-! ## Claims -/

/-- C1: for every draft whose trimmed title has length ≥ 3 and trimmed
message length ≥ 5, `publish` invoked by an admin actor succeeds: it prepends
a new announcement whose `title`/`message` are the trimmed draft fields,
`verified = true`, `author` the actor's name (or `"System"` when empty or
absent), `date` the time of the call, and a fresh `id`; all previously stored
announcements are unchanged and keep their relative order. -/
theorem publish_admin_success (user : Option User) (newId now : String)
    (s : RepoState)
    (hAdmin : canManage user = true)
    (hTitle : 3 ≤ (trimStr (jsOr s.announcementData.title "")).length)
    (hMsg : 5 ≤ (trimStr (jsOr s.announcementData.message "")).length)
    (hFresh : newId ∉ s.announcements.map Announcement.id) :
    publishAnnouncement user newId now s =
      (Outcome.ok,
        { s with
          announcements :=
            { id := newId
              title := some (trimStr (jsOr s.announcementData.title ""))
              message := some (trimStr (jsOr s.announcementData.message ""))
              author := some (jsOr (userName user) "System")
              verified := true
              date := some now } :: s.announcements
          announcementData := { title := some "", message := some "" } })
      ∧ newId ∉ s.announcements.map Announcement.id := by
  refine ⟨?_, hFresh⟩
  simp [publishAnnouncement, hAdmin, Nat.not_lt.mpr hTitle, Nat.not_lt.mpr hMsg]

/-- Witness for C1 at a concrete admin session, state and fresh id. -/
theorem publish_admin_success_witness :
    publishAnnouncement adminU "n1" "1970-01-02T00:00:00.000Z" st0 =
      (Outcome.ok,
        { st0 with
          announcements :=
            { id := "n1", title := some "Hello"
              message := some "World out there", author := some "Ava"
              verified := true
              date := some "1970-01-02T00:00:00.000Z" } :: st0.announcements
          announcementData := { title := some "", message := some "" } }) := by
  have h := publish_admin_success adminU "n1" "1970-01-02T00:00:00.000Z" st0
    (by decide) (by decide) (by decide) (by decide)
  exact h.1.trans (by decide)

/-- C2: for every actor whose role is not admin, `publish`, `update`
(`saveEdit`) and `remove` (`requestDelete`) all take the unauthorized early
return and leave the entire state — in particular the announcement list —
unchanged. -/
theorem nonAdmin_all_unauthorized (user : Option User)
    (newId now editId delId : String) (s : RepoState)
    (h : canManage user = false) :
    publishAnnouncement user newId now s = (Outcome.unauthorized, s)
    ∧ saveEdit user editId s = (Outcome.unauthorized, s)
    ∧ requestDelete user delId s = (Outcome.unauthorized, s) := by
  simp [publishAnnouncement, saveEdit, requestDelete, h]

/-- Witness for C2 at a concrete non-admin session. -/
theorem nonAdmin_all_unauthorized_witness :
    publishAnnouncement studentU "n1" "d" st0 = (Outcome.unauthorized, st0)
    ∧ saveEdit studentU "b" st0 = (Outcome.unauthorized, st0)
    ∧ requestDelete studentU "b" st0 = (Outcome.unauthorized, st0) :=
  nonAdmin_all_unauthorized studentU "n1" "d" "b" "b" st0 (by decide)

/-- C3: for a privileged actor, `publish` and `update` trim the draft's
title and message, fail with `invalidTitle` exactly when the trimmed title
length is < 3, fail with `invalidMessage` exactly when the trimmed title
length is ≥ 3 and the trimmed message length is < 5, and on every such
failure the state (hence the announcement list) is unchanged. -/
theorem validation_exactly (user : Option User) (newId now editId : String)
    (s : RepoState) (hAdmin : canManage user = true) :
    ((publishAnnouncement user newId now s).1 = Outcome.invalidTitle ↔
      (trimStr (jsOr s.announcementData.title "")).length < 3)
    ∧ ((publishAnnouncement user newId now s).1 = Outcome.invalidMessage ↔
      (3 ≤ (trimStr (jsOr s.announcementData.title "")).length ∧
        (trimStr (jsOr s.announcementData.message "")).length < 5))
    ∧ ((trimStr (jsOr s.announcementData.title "")).length < 3 ∨
        (trimStr (jsOr s.announcementData.message "")).length < 5 →
      (publishAnnouncement user newId now s).2 = s)
    ∧ ((saveEdit user editId s).1 = Outcome.invalidTitle ↔
      (trimStr (jsOr s.editDraft.title "")).length < 3)
    ∧ ((saveEdit user editId s).1 = Outcome.invalidMessage ↔
      (3 ≤ (trimStr (jsOr s.editDraft.title "")).length ∧
        (trimStr (jsOr s.editDraft.message "")).length < 5))
    ∧ ((trimStr (jsOr s.editDraft.title "")).length < 3 ∨
        (trimStr (jsOr s.editDraft.message "")).length < 5 →
      (saveEdit user editId s).2 = s) := by
  refine ⟨?_, ?_, ?_, ?_, ?_, ?_⟩ <;>
    simp only [publishAnnouncement, saveEdit, hAdmin, Bool.not_true,
      Bool.false_eq_true, if_false] <;>
    split_ifs <;> simp_all

/-- Witness for C3 at a concrete admin session and an overly short draft. -/
theorem validation_exactly_witness :
    (publishAnnouncement adminU "n1" "d"
      { st0 with announcementData := { title := some " ab ", message := some "okay?" } }).1
      = Outcome.invalidTitle := by
  have h := validation_exactly adminU "n1" "d" "b"
    { st0 with announcementData := { title := some " ab ", message := some "okay?" } }
    (by decide)
  exact h.1.mpr (by decide)

/-- C10: after every successful `publish` the pending creation draft is reset
to empty title and message; every failed `publish` leaves the whole state —
in particular the pending creation draft — unchanged. -/
theorem publish_draft_reset (user : Option User) (newId now : String)
    (s : RepoState) :
    ((publishAnnouncement user newId now s).1 = Outcome.ok →
      (publishAnnouncement user newId now s).2.announcementData =
        { title := some "", message := some "" })
    ∧ ((publishAnnouncement user newId now s).1 ≠ Outcome.ok →
      (publishAnnouncement user newId now s).2 = s) := by
  unfold publishAnnouncement
  dsimp only
  constructor <;> intro h <;> split_ifs at h ⊢ <;> simp_all

/-- Witness for C10: a concrete successful publish resets the draft and a
concrete failed publish leaves the state unchanged. -/
theorem publish_draft_reset_witness :
    (publishAnnouncement adminU "n1" "d" st0).2.announcementData =
      { title := some "", message := some "" }
    ∧ (publishAnnouncement studentU "n1" "d" st0).2 = st0 :=
  ⟨(publish_draft_reset adminU "n1" "d" st0).1 (by decide),
    (publish_draft_reset studentU "n1" "d" st0).2 (by decide)⟩

/-- C4 counterexample: with the admin session `adminU`, the valid edit draft
of `st0` and the id `"zzz"` that no stored announcement has, `saveEdit`
reaches the success branch — it reports success (`ok`, the
`'Announcement updated.'` toast) rather than any `notFound` outcome — while
the list is silently left unchanged.  This refutes the claim that update on a
missing id fails with an explicit NotFound outcome. -/
theorem saveEdit_missing_id_counterexample :
    (saveEdit adminU "zzz" st0).1 = Outcome.ok
    ∧ (saveEdit adminU "zzz" st0).1 ≠ Outcome.notFound
    ∧ (saveEdit adminU "zzz" st0).2.announcements = st0.announcements := by
  decide

/-- C4 amended: for every id not present in the announcement list,
`update` (`saveEdit`) by a privileged actor with a valid draft is a silent
no-op on the list: it reports the success outcome (there is no NotFound
outcome) and the announcement list is unchanged. -/
theorem saveEdit_missing_id_silent_noop (user : Option User) (id : String)
    (s : RepoState)
    (hAdmin : canManage user = true)
    (hTitle : 3 ≤ (trimStr (jsOr s.editDraft.title "")).length)
    (hMsg : 5 ≤ (trimStr (jsOr s.editDraft.message "")).length)
    (hMissing : id ∉ s.announcements.map Announcement.id) :
    (saveEdit user id s).1 = Outcome.ok
    ∧ (saveEdit user id s).2.announcements = s.announcements := by
  have hmap : s.announcements.map
      (applyEdit id (trimStr (jsOr s.editDraft.title ""))
        (trimStr (jsOr s.editDraft.message ""))) = s.announcements := by
    refine (List.map_congr_left ?_).trans (List.map_id _)
    intro a ha
    have hne : a.id ≠ id := fun hEq => hMissing (hEq ▸ List.mem_map_of_mem Announcement.id ha)
    simp [applyEdit, hne]
  simp [saveEdit, hAdmin, Nat.not_lt.mpr hTitle, Nat.not_lt.mpr hMsg, hmap]

/-- Witness for the amended C4 at the concrete input of the counterexample. -/
theorem saveEdit_missing_id_silent_noop_witness :
    (saveEdit adminU "zzz" st0).2.announcements = st0.announcements :=
  (saveEdit_missing_id_silent_noop adminU "zzz" st0
    (by decide) (by decide) (by decide) (by decide)).2

/-- C8: every successful `update` (`saveEdit`) by a privileged actor on an
existing announcement changes only the title and message of the matching
announcement (to the trimmed draft values); its id, author, verified and
date are unchanged, every other announcement is untouched, and the list's
length and stored order are preserved (the new list is the element-wise
image of the old one). -/
theorem saveEdit_frame (user : Option User) (id : String) (s : RepoState)
    (hAdmin : canManage user = true)
    (hTitle : 3 ≤ (trimStr (jsOr s.editDraft.title "")).length)
    (hMsg : 5 ≤ (trimStr (jsOr s.editDraft.message "")).length)
    (_hExists : id ∈ s.announcements.map Announcement.id) :
    (saveEdit user id s).1 = Outcome.ok
    ∧ (saveEdit user id s).2.announcements =
        s.announcements.map
          (applyEdit id (trimStr (jsOr s.editDraft.title ""))
            (trimStr (jsOr s.editDraft.message "")))
    ∧ (saveEdit user id s).2.announcements.length = s.announcements.length
    ∧ (∀ a : Announcement,
        (applyEdit id (trimStr (jsOr s.editDraft.title ""))
            (trimStr (jsOr s.editDraft.message "")) a).id = a.id
        ∧ (applyEdit id (trimStr (jsOr s.editDraft.title ""))
            (trimStr (jsOr s.editDraft.message "")) a).author = a.author
        ∧ (applyEdit id (trimStr (jsOr s.editDraft.title ""))
            (trimStr (jsOr s.editDraft.message "")) a).verified = a.verified
        ∧ (applyEdit id (trimStr (jsOr s.editDraft.title ""))
            (trimStr (jsOr s.editDraft.message "")) a).date = a.date
        ∧ (a.id ≠ id →
            applyEdit id (trimStr (jsOr s.editDraft.title ""))
              (trimStr (jsOr s.editDraft.message "")) a = a)
        ∧ (a.id = id →
            applyEdit id (trimStr (jsOr s.editDraft.title ""))
              (trimStr (jsOr s.editDraft.message "")) a =
              { a with title := some (trimStr (jsOr s.editDraft.title ""))
                       message := some (trimStr (jsOr s.editDraft.message "")) })) := by
  refine ⟨?_, ?_, ?_, ?_⟩
  · simp [saveEdit, hAdmin, Nat.not_lt.mpr hTitle, Nat.not_lt.mpr hMsg]
  · simp [saveEdit, hAdmin, Nat.not_lt.mpr hTitle, Nat.not_lt.mpr hMsg]
  · simp [saveEdit, hAdmin, Nat.not_lt.mpr hTitle, Nat.not_lt.mpr hMsg]
  · intro a
    by_cases hEq : a.id = id <;> simp [applyEdit, hEq]

/-- Witness for C8: editing the stored announcement `annB` in `st0`. -/
theorem saveEdit_frame_witness :
    (saveEdit adminU "b" st0).1 = Outcome.ok
    ∧ (saveEdit adminU "b" st0).2.announcements =
        st0.announcements.map (applyEdit "b"
          (trimStr (jsOr st0.editDraft.title ""))
          (trimStr (jsOr st0.editDraft.message ""))) := by
  have h := saveEdit_frame adminU "b" st0 (by decide) (by decide) (by decide)
    (by decide)
  exact ⟨h.1, h.2.1⟩

/-- C6: `query` uses the fixed page size 5, clamps the requested page number
into `[1, max(1, ceil(totalCount/5))]` (out-of-range requests clamp silently
— the clamped number is the request itself whenever it was in range), and
returns as `items` exactly the slice of the sorted filtered list for the
clamped page; when no announcement matches the filter, `items` is empty,
`totalCount` is 0, `pageCount` is 1 and the reported page number is 1. -/
theorem query_pagination (lc : String → String → Int)
    (pd : String → Option Int) (anns : List Announcement)
    (search sortKey sortDir : String) (page : Int) :
    pageSize = 5
    ∧ (query lc pd anns search sortKey sortDir page).totalCount =
        (filteredSorted lc pd anns search sortKey sortDir).length
    ∧ (query lc pd anns search sortKey sortDir page).pageCount =
        max 1 ((((filteredSorted lc pd anns search sortKey sortDir).length : Int)
          + 5 - 1) / 5)
    ∧ (query lc pd anns search sortKey sortDir page).pageNumber =
        clamp page 1 (query lc pd anns search sortKey sortDir page).pageCount
    ∧ 1 ≤ (query lc pd anns search sortKey sortDir page).pageNumber
    ∧ (query lc pd anns search sortKey sortDir page).pageNumber ≤
        (query lc pd anns search sortKey sortDir page).pageCount
    ∧ (1 ≤ page →
        page ≤ (query lc pd anns search sortKey sortDir page).pageCount →
        (query lc pd anns search sortKey sortDir page).pageNumber = page)
    ∧ (query lc pd anns search sortKey sortDir page).items =
        ((filteredSorted lc pd anns search sortKey sortDir).drop
          (((query lc pd anns search sortKey sortDir page).pageNumber - 1).toNat
            * 5)).take 5
    ∧ (filteredSorted lc pd anns search sortKey sortDir = [] →
        (query lc pd anns search sortKey sortDir page).items = []
        ∧ (query lc pd anns search sortKey sortDir page).totalCount = 0
        ∧ (query lc pd anns search sortKey sortDir page).pageCount = 1
        ∧ (query lc pd anns search sortKey sortDir page).pageNumber = 1) := by
  refine ⟨rfl, rfl, rfl, rfl, ?_, ?_, ?_, rfl, ?_⟩
  · simp only [query, clamp]
    omega
  · simp only [query, clamp]
    omega
  · intro h1 h2
    simp only [query, clamp] at h2 ⊢
    omega
  · intro hEmpty
    simp only [query, clamp, hEmpty, pageSize, List.length_nil]
    refine ⟨by simp, by trivial, by omega, by omega⟩

/-- Witness for C6: the no-match scenario from the spec, on a non-empty
list, reports an empty page 1 of 1. -/
theorem query_pagination_witness :
    (query lcStd pdSample [annA, annB] "nomatch" "date" "desc" 1).items = []
    ∧ (query lcStd pdSample [annA, annB] "nomatch" "date" "desc" 1).totalCount = 0
    ∧ (query lcStd pdSample [annA, annB] "nomatch" "date" "desc" 1).pageCount = 1
    ∧ (query lcStd pdSample [annA, annB] "nomatch" "date" "desc" 1).pageNumber = 1 :=
  (query_pagination lcStd pdSample [annA, annB] "nomatch" "date" "desc" 1).2.2.2.2.2.2.2.2
    (by decide)

/-- C7: `query` is pure: the stored announcement list after an evaluation is
exactly what it was before (`Array.filter` hands the in-place sort a fresh
copy), and re-running `query` with identical parameters on the list left
behind by the first run returns identical `items`. -/
theorem query_pure (lc : String → String → Int) (pd : String → Option Int)
    (anns : List Announcement) (search sortKey sortDir : String)
    (page : Int) :
    (queryExec lc pd anns search sortKey sortDir page).2 = anns
    ∧ (query lc pd (queryExec lc pd anns search sortKey sortDir page).2
        search sortKey sortDir page).items =
      (query lc pd anns search sortKey sortDir page).items :=
  ⟨rfl, rfl⟩

/-- Lower-casing a string does not change whether it is empty. -/
theorem lowerStr_empty_iff (s : String) : lowerStr s = "" ↔ s = "" := by
  cases s with
  | mk l =>
    constructor <;> intro h
    · have : l.map Char.toLower = [] := congrArg String.data h
      have : l = [] := List.map_eq_nil_iff.mp this
      simp [this]
    · simp [lowerStr, show l = [] from congrArg String.data h]

/-- C5 counterexample: `annA`'s date does not parse (`new Date('not-a-date')`
is an Invalid Date), so on sort key `date` its comparison against `annB`
(dated 1 s after the epoch) is `NaN`, which the sort treats as a tie: the
ascending sort leaves `annB` (1000 ms) *before* `annA`.  Had the unparsable
date been treated as the epoch — as the claim states, and as
`claimDateCompare` words it — `annA` would have been placed first. -/
theorem sort_unparsable_date_counterexample :
    filteredSorted lcStd pdSample [annB, annA] "" "date" "asc" = [annB, annA]
    ∧ jsSort (claimDateCompare pdSample "asc") [annB, annA] = [annA, annB]
    ∧ dateMs pdSample annA = none
    ∧ claimDateMs pdSample annA = 0 := by
  decide

/-- C5 amended: sorting in `query` is the stable comparator sort by the
chosen key — the output is a permutation of the filtered list and on a
two-element list the original order is kept exactly when the comparator is
`≤ 0`; for key `title`/`author` the comparator is the locale-aware
comparison of those fields times the direction (+1 for `asc`, −1 otherwise);
for key `date` it compares timestamps, an announcement whose date is
*missing or empty* being treated as the epoch — but a comparison involving a
present-yet-unparsable date evaluates to `NaN`, which the sort treats as a
tie (`0`), not as the epoch. -/
theorem sorting_amended (lc : String → String → Int)
    (pd : String → Option Int) (anns : List Announcement)
    (search sortKey sortDir : String) (a b : Announcement) :
    (filteredSorted lc pd anns search sortKey sortDir).Perm
      (anns.filter (matchesFilter (lowerStr (trimStr search))))
    ∧ filteredSorted lc pd anns search sortKey sortDir =
        jsSort (sortCompare lc pd sortKey sortDir)
          (anns.filter (matchesFilter (lowerStr (trimStr search))))
    ∧ (∀ cmp : Announcement → Announcement → Int,
        jsSort cmp [a, b] = if cmp a b ≤ 0 then [a, b] else [b, a])
    ∧ sortCompare lc pd "title" sortDir a b =
        lc (jsOr a.title "") (jsOr b.title "") *
          (if sortDir == "asc" then 1 else -1)
    ∧ sortCompare lc pd "author" sortDir a b =
        lc (jsOr a.author "") (jsOr b.author "") *
          (if sortDir == "asc" then 1 else -1)
    ∧ (∀ x y : Int, sortKey ≠ "title" → sortKey ≠ "author" →
        dateMs pd a = some x → dateMs pd b = some y →
        sortCompare lc pd sortKey sortDir a b =
          (x - y) * (if sortDir == "asc" then 1 else -1))
    ∧ (a.date = none ∨ a.date = some "" → dateMs pd a = some 0)
    ∧ (∀ ds : String, sortKey ≠ "title" → sortKey ≠ "author" →
        a.date = some ds → ds ≠ "" → pd ds = none →
        sortCompare lc pd sortKey sortDir a b = 0) := by
  refine ⟨List.perm_insertionSort _ _, rfl, ?_, ?_, ?_, ?_, ?_, ?_⟩
  · intro cmp
    by_cases h : cmp a b ≤ 0 <;>
      simp [jsSort, List.insertionSort, List.orderedInsert, h]
  · simp [sortCompare, compareAnn]
  · simp [sortCompare, compareAnn]
  · intro x y hk1 hk2 hx hy
    simp [sortCompare, compareAnn, hk1, hk2, hx, hy]
  · rintro (h | h) <;> simp [dateMs, h]
  · intro ds hk1 hk2 hd hne hpd
    have ha : dateMs pd a = none := by simp [dateMs, hd, hne, hpd]
    cases hb : dateMs pd b <;>
      simp [sortCompare, compareAnn, hk1, hk2, ha, hb]

/-- Witness for the amended C5: the NaN tie at the counterexample's input. -/
theorem sorting_amended_witness :
    sortCompare lcStd pdSample "date" "asc" annA annB = 0 :=
  (sorting_amended lcStd pdSample [] "" "date" "asc" annA annB).2.2.2.2.2.2.2
    "not-a-date" (by decide) (by decide) rfl (by decide) (by decide)

/-- C9 counterexample: the filter text `"abc "` (trailing blank; neither
empty nor blank) *does* match `annA` (title `"abc"`) in the code, because the
code trims the filter text before matching; but `"abc "` lowercased is not a
substring of any lowercased field of `annA`, so the claim's untrimmed
characterization (`claimMatches`) says it does not match. -/
theorem filter_untrimmed_counterexample :
    filteredSorted lcStd pdSample [annA] "abc " "date" "asc" = [annA]
    ∧ claimMatches "abc " annA = false := by
  decide

/-- C9 amended: filtering in `query` matches an announcement exactly when
the filter text, *trimmed* and lowercased, is a substring of the lowercased
title, lowercased message, or lowercased author (a missing field being
treated as the empty string, so filtering never fails on partial data); an
empty or blank filter matches every announcement. -/
theorem filter_match_iff (lc : String → String → Int)
    (pd : String → Option Int) (anns : List Announcement)
    (search sortKey sortDir : String) (a : Announcement) :
    a ∈ filteredSorted lc pd anns search sortKey sortDir ↔
      a ∈ anns ∧
        (trimStr search = ""
          ∨ containsSub (lowerStr (jsOr a.title ""))
              (lowerStr (trimStr search)) = true
          ∨ containsSub (lowerStr (jsOr a.message ""))
              (lowerStr (trimStr search)) = true
          ∨ containsSub (lowerStr (jsOr a.author ""))
              (lowerStr (trimStr search)) = true) := by
  unfold filteredSorted jsSort
  rw [(List.perm_insertionSort _ _).mem_iff, List.mem_filter]
  simp [matchesFilter, lowerStr_empty_iff]
  tauto

end Mythos

